import Mathlib

/-!
Verification of the MyAutoKit order-creation core (src/main.py, src/schemas.py).

Shallow embedding conventions:
* Python floats are modelled as exact rationals (`ℚ`); `round(x, 2)` is
  modelled as decimal rounding to 2 places with ties to even (`round2`),
  matching Python's banker's rounding on exact decimal values.
* The MongoDB product collection is modelled as a lookup function
  `String → Option ProductDoc` keyed by the 24-hex-character ObjectId string;
  raw documents may lack fields, hence the `Option` fields of `ProductDoc`.
* `bson.ObjectId(s)` raises on a malformed string; in `create_order` this is
  caught and folded into `prod = None`.  `findProduct` models the combined
  try/except + `find_one` as: malformed id ⇒ `none`, else catalog lookup.
* Pydantic validation of a model constructed with keyword data is modelled by
  explicit `Option`-returning validators (`validateOrderItem`, `mkOrder`);
  a `ValidationError` escaping to the handler's catch-all becomes the
  HTTP 500 outcome (`HttpError.internalError`).
* The order store is append-only; `ordersAfter` gives the store state after a
  request (unchanged on any rejection).
-/

/-- Hex-digit test for one character of a candidate ObjectId string. -/
def isHexDigitChar (c : Char) : Bool :=
  c.isDigit || ('a' ≤ c && c ≤ 'f') || ('A' ≤ c && c ≤ 'F')

/-- Well-formedness of a BSON ObjectId given as a string: exactly 24 hex
characters.  `bson.ObjectId(s)` raises `InvalidId` otherwise. -/
def isValidObjectId (s : String) : Bool :=
  s.data.length == 24 && s.data.all isHexDigitChar

/-- A raw product document as stored in the `product` collection.  Raw MongoDB
documents are schemaless, so every field read via `prod.get(...)` is optional;
`create_order` reads `title`, `price` (with default `0.0`) and `image`. -/
structure ProductDoc where
  title : Option String
  price : Option ℚ
  image : Option String
deriving DecidableEq

/-- The `Customer` schema (schemas.py).  Email-format validation happens at the
HTTP boundary before `create_order` runs; here customers are already valid. -/
structure Customer where
  name : String
  email : String
  phone : Option String
  address_line1 : String
  address_line2 : Option String
  city : String
  state : String
  postal_code : String
  country : String
deriving DecidableEq

/-- A validated `OrderItem` (schemas.py): `product_id`, `title` and `price` are
required, `price ≥ 0`, `quantity ≥ 1`, `image` optional. -/
structure OrderItem where
  product_id : String
  title : String
  price : ℚ
  quantity : ℤ
  image : Option String
deriving DecidableEq

/-- Raw (pre-validation) order-item payload: every field may be absent. -/
structure RawOrderItem where
  product_id : Option String
  title : Option String
  price : Option ℚ
  quantity : Option ℤ
  image : Option String
deriving DecidableEq

/-- Pydantic validation of one `OrderItem`: all of `product_id`, `title`,
`price`, `quantity` must be present, with `price ≥ 0` and `quantity ≥ 1`. -/
def validateOrderItem (r : RawOrderItem) : Option OrderItem :=
  match r.product_id, r.title, r.price, r.quantity with
  | some pid, some t, some p, some q =>
      if 0 ≤ p ∧ 1 ≤ q then some ⟨pid, t, p, q, r.image⟩ else none
  | _, _, _, _ => none

/-- Validation of a list of raw items, failing if any item fails. -/
def validateRawItems : List RawOrderItem → Option (List OrderItem)
  | [] => some []
  | r :: rest =>
    match validateOrderItem r with
    | none => none
    | some v =>
      match validateRawItems rest with
      | none => none
      | some vs => some (v :: vs)

/-- The validated `OrderCreate` request body (main.py): a list of items, a
customer, and a shipping value defaulting to `0.0`. -/
structure OrderCreate where
  items : List OrderItem
  customer : Customer
  shipping : ℚ
deriving DecidableEq

/-- Request-schema validation for `POST /api/orders`: the `items` field reuses
the persisted `OrderItem` schema, so each item must carry `product_id`,
`title`, `price ≥ 0` and `quantity ≥ 1`; `shipping` defaults to `0.0`. -/
def validateOrderCreate (items : List RawOrderItem) (customer : Customer)
    (shipping : Option ℚ) : Option OrderCreate :=
  match validateRawItems items with
  | none => none
  | some vitems => some ⟨vitems, customer, shipping.getD 0⟩

/-- The `Order` document schema (schemas.py): all of `subtotal`, `shipping`
and `total` carry a `ge=0` constraint; `status` is a plain string. -/
structure Order where
  items : List OrderItem
  customer : Customer
  subtotal : ℚ
  shipping : ℚ
  total : ℚ
  status : String
deriving DecidableEq

/-- Decimal rounding of `q` to the nearest integer with ties to even, as
Python's `round` does on exact values. -/
def roundHalfEven (q : ℚ) : ℤ :=
  let f : ℤ := ⌊q⌋
  let r : ℚ := q - f
  if r < 1 / 2 then f
  else if 1 / 2 < r then f + 1
  else if f % 2 = 0 then f else f + 1

/-- Python's `round(x, 2)`: round to 2 decimal places, ties to even. -/
def round2 (q : ℚ) : ℚ :=
  (roundHalfEven (100 * q) : ℚ) / 100

/-- Product lookup by id as `create_order` performs it:
`ObjectId(it.product_id)` raising (malformed id) is caught and treated as a
missing record, otherwise `find_one` queries the catalog. -/
def findProduct (catalog : String → Option ProductDoc) (pid : String) :
    Option ProductDoc :=
  if isValidObjectId pid then catalog pid else none

/-- A normalized line item exactly as the dict appended to `normalized_items`:
`title` and `image` come from the raw product document (possibly absent),
`price` is `float(prod.get("price", 0.0))`, `quantity` is the client's. -/
structure NormItem where
  product_id : String
  title : Option String
  price : ℚ
  quantity : ℤ
  image : Option String
deriving DecidableEq

/-- Result of the normalization loop: either the raw (unrounded) subtotal with
the normalized items, or the detail string of the HTTP 400 raised. -/
inductive NormResult where
  | ok (subtotal : ℚ) (items : List NormItem)
  | invalid (detail : String)
deriving DecidableEq

/-- The per-item loop of `create_order` (main.py lines 161-177): resolve each
product in input order, fail on the first unresolvable id, otherwise snapshot
title/price/image from the catalog document and accumulate `price * quantity`
into the subtotal. -/
def normalizeLoop (catalog : String → Option ProductDoc) :
    List OrderItem → NormResult
  | [] => .ok 0 []
  | it :: rest =>
    match findProduct catalog it.product_id with
    | none => .invalid ("Invalid product: " ++ it.product_id)
    | some prod =>
      let price := prod.price.getD 0
      match normalizeLoop catalog rest with
      | .invalid d => .invalid d
      | .ok sub ns =>
          .ok (price * (it.quantity : ℚ) + sub)
            (⟨it.product_id, prod.title, price, it.quantity, prod.image⟩ :: ns)

/-- Validation of the normalized items through `OrderItemSchema(**ni)`
(main.py line 183): each dict must yield a valid `OrderItem`, in particular
`title` must be present and `price ≥ 0`, `quantity ≥ 1`. -/
def validateItems : List NormItem → Option (List OrderItem)
  | [] => some []
  | n :: rest =>
    match validateOrderItem ⟨some n.product_id, n.title, some n.price,
        some n.quantity, n.image⟩ with
    | none => none
    | some v =>
      match validateItems rest with
      | none => none
      | some vs => some (v :: vs)

/-- Construction of the `OrderSchema` document (main.py lines 182-189): every
item is validated, and `subtotal`, `shipping`, `total` must all be `≥ 0`;
any violation raises a `ValidationError` (modelled as `none`). -/
def mkOrder (nitems : List NormItem) (customer : Customer)
    (subtotal shipping total : ℚ) (status : String) : Option Order :=
  match validateItems nitems with
  | none => none
  | some vitems =>
    if 0 ≤ subtotal ∧ 0 ≤ shipping ∧ 0 ≤ total then
      some ⟨vitems, customer, subtotal, shipping, total, status⟩
    else none

/-- HTTP error outcomes of `create_order`: a 400 with a detail string, or the
catch-all 500 produced when an unexpected exception (here: a pydantic
`ValidationError` from `OrderSchema`) escapes. -/
inductive HttpError where
  | badRequest (detail : String)
  | internalError (detail : String)
deriving DecidableEq

/-- The success response body of `POST /api/orders` apart from the
store-assigned `order_id`: `{"total": total, "status": "pending"}`. -/
structure OrderResp where
  total : ℚ
  status : String
deriving DecidableEq

/-- Terminal outcome of one `create_order` request: the persisted document
together with the response, or an HTTP error with nothing persisted. -/
inductive CreateOutcome where
  | created (doc : Order) (resp : OrderResp)
  | rejected (err : HttpError)
deriving DecidableEq

/-- The `create_order` handler (main.py lines 152-195).  Empty cart ⇒ 400;
first unresolvable product id ⇒ 400 naming it; then
`shipping = float(order.shipping or 0.0)` (value-identity on exact rationals),
`total = round(subtotal + shipping, 2)` from the unrounded subtotal,
and the order document with `subtotal = round(subtotal, 2)` and status
"pending"; a schema violation at document construction is caught by the
handler's catch-all as a 500. -/
def createOrder (catalog : String → Option ProductDoc) (req : OrderCreate) :
    CreateOutcome :=
  if req.items.isEmpty then .rejected (.badRequest "Cart is empty")
  else
    match normalizeLoop catalog req.items with
    | .invalid d => .rejected (.badRequest d)
    | .ok subtotal nitems =>
      let shipping := req.shipping
      let total := round2 (subtotal + shipping)
      match mkOrder nitems req.customer (round2 subtotal) shipping total
          "pending" with
      | none => .rejected (.internalError "validation error")
      | some doc => .created doc ⟨total, "pending"⟩

/-- State of the append-only order store after one request: a created order is
appended by `create_document`, any rejection leaves the store unchanged. -/
def ordersAfter (catalog : String → Option ProductDoc) (store : List Order)
    (req : OrderCreate) : List Order :=
  match createOrder catalog req with
  | .created doc _ => store ++ [doc]
  | .rejected _ => store

/-- The unit price `create_order` uses for a cart item: the resolved
document's `price` with default `0.0`, or `0` on the (rejecting) not-found
path. -/
def resolvedPrice (catalog : String → Option ProductDoc) (it : OrderItem) : ℚ :=
  match findProduct catalog it.product_id with
  | some prod => prod.price.getD 0
  | none => 0

/-- The raw (unrounded) subtotal of a cart: sum of unit price × quantity. -/
def rawSubtotal (catalog : String → Option ProductDoc)
    (items : List OrderItem) : ℚ :=
  (items.map (fun it => resolvedPrice catalog it * (it.quantity : ℚ))).sum

/-- Relation between a cart item and its normalized snapshot: the snapshot
copies the client's `product_id` and `quantity` and takes title, price and
image from the resolved catalog document. -/
def SnapRel (catalog : String → Option ProductDoc) (it : OrderItem)
    (n : NormItem) : Prop :=
  ∃ prod, findProduct catalog it.product_id = some prod ∧
    n = ⟨it.product_id, prod.title, prod.price.getD 0, it.quantity, prod.image⟩

theorem rawSubtotal_nil (catalog : String → Option ProductDoc) :
    rawSubtotal catalog [] = 0 := by
  simp [rawSubtotal]

theorem rawSubtotal_cons (catalog : String → Option ProductDoc)
    (it : OrderItem) (rest : List OrderItem) :
    rawSubtotal catalog (it :: rest) =
      resolvedPrice catalog it * (it.quantity : ℚ) + rawSubtotal catalog rest := by
  simp [rawSubtotal]

theorem roundHalfEven_intCast (n : ℤ) : roundHalfEven (n : ℚ) = n := by
  unfold roundHalfEven
  norm_num

theorem round2_int_div (n : ℤ) : round2 ((n : ℚ) / 100) = (n : ℚ) / 100 := by
  unfold round2
  rw [show (100 : ℚ) * ((n : ℚ) / 100) = (n : ℚ) by ring, roundHalfEven_intCast]

theorem roundHalfEven_nonneg (q : ℚ) (h : 0 ≤ q) : 0 ≤ roundHalfEven q := by
  unfold roundHalfEven
  have hf : (0 : ℤ) ≤ ⌊q⌋ := Int.floor_nonneg.mpr h
  dsimp only
  split_ifs <;> omega

theorem round2_nonneg (q : ℚ) (h : 0 ≤ q) : 0 ≤ round2 q := by
  unfold round2
  have h1 : 0 ≤ roundHalfEven (100 * q) :=
    roundHalfEven_nonneg (100 * q) (by positivity)
  have h2 : (0 : ℚ) ≤ (roundHalfEven (100 * q) : ℚ) := by exact_mod_cast h1
  positivity

theorem isEmpty_eq_false_of_ne {l : List OrderItem} (h : l ≠ []) :
    l.isEmpty = false := by
  cases l with
  | nil => exact absurd rfl h
  | cons a as => rfl

theorem normalizeLoop_ok_of_resolve (catalog : String → Option ProductDoc) :
    ∀ items : List OrderItem,
      (∀ it ∈ items, (findProduct catalog it.product_id).isSome) →
      ∃ ns, normalizeLoop catalog items = .ok (rawSubtotal catalog items) ns ∧
        List.Forall₂ (SnapRel catalog) items ns
  | [], _ => ⟨[], by simp [normalizeLoop, rawSubtotal], List.Forall₂.nil⟩
  | it :: rest, h => by
    obtain ⟨prod, hprod⟩ :=
      Option.isSome_iff_exists.mp (h it (List.mem_cons_self it rest))
    obtain ⟨ns, hn, hf⟩ := normalizeLoop_ok_of_resolve catalog rest
      (fun j hj => h j (List.mem_cons_of_mem it hj))
    refine ⟨⟨it.product_id, prod.title, prod.price.getD 0, it.quantity,
      prod.image⟩ :: ns, ?_, List.Forall₂.cons ⟨prod, hprod, rfl⟩ hf⟩
    have hrp : resolvedPrice catalog it = prod.price.getD 0 := by
      simp [resolvedPrice, hprod]
    simp [normalizeLoop, hprod, hn, rawSubtotal_cons, hrp]

theorem normalizeLoop_invalid_of_missing (catalog : String → Option ProductDoc) :
    ∀ items : List OrderItem,
      (∃ it ∈ items, findProduct catalog it.product_id = none) →
      ∃ it ∈ items, findProduct catalog it.product_id = none ∧
        normalizeLoop catalog items =
          .invalid ("Invalid product: " ++ it.product_id)
  | [], h => by simp at h
  | it :: rest, h => by
    cases hfp : findProduct catalog it.product_id with
    | none =>
      exact ⟨it, List.mem_cons_self it rest, hfp, by simp [normalizeLoop, hfp]⟩
    | some prod =>
      obtain ⟨j, hj, hjnone⟩ := h
      have hjr : j ∈ rest := by
        rcases List.mem_cons.mp hj with hji | hjr
        · rw [hji] at hjnone; rw [hjnone] at hfp; cases hfp
        · exact hjr
      obtain ⟨k, hk, hknone, hinv⟩ :=
        normalizeLoop_invalid_of_missing catalog rest ⟨j, hjr, hjnone⟩
      exact ⟨k, List.mem_cons_of_mem it hk, hknone,
        by simp [normalizeLoop, hfp, hinv]⟩

theorem normalizeLoop_invalid_append (catalog : String → Option ProductDoc) :
    ∀ (pre : List OrderItem) (it : OrderItem) (post : List OrderItem),
      (∀ j ∈ pre, (findProduct catalog j.product_id).isSome) →
      findProduct catalog it.product_id = none →
      normalizeLoop catalog (pre ++ it :: post) =
        .invalid ("Invalid product: " ++ it.product_id)
  | [], it, post, _, hit => by simp [normalizeLoop, hit]
  | j :: pre, it, post, hpre, hit => by
    obtain ⟨prod, hprod⟩ :=
      Option.isSome_iff_exists.mp (hpre j (List.mem_cons_self j pre))
    have hrec := normalizeLoop_invalid_append catalog pre it post
      (fun k hk => hpre k (List.mem_cons_of_mem j hk)) hit
    simp [normalizeLoop, hprod, hrec]

theorem normalizeLoop_proj (catalog : String → Option ProductDoc) :
    ∀ l₁ l₂ : List OrderItem,
      l₁.map (fun it => (it.product_id, it.quantity)) =
        l₂.map (fun it => (it.product_id, it.quantity)) →
      normalizeLoop catalog l₁ = normalizeLoop catalog l₂
  | [], [], _ => rfl
  | [], b :: bs, h => by simp at h
  | a :: as, [], h => by simp at h
  | a :: as, b :: bs, h => by
    simp only [List.map_cons, List.cons.injEq, Prod.mk.injEq] at h
    obtain ⟨⟨hpid, hqty⟩, htl⟩ := h
    have hrec := normalizeLoop_proj catalog as bs htl
    simp only [normalizeLoop, hpid, hqty, hrec]

theorem mkOrder_some_elim (nitems : List NormItem) (c : Customer)
    (s sh t : ℚ) (st : String) (doc : Order)
    (h : mkOrder nitems c s sh t st = some doc) :
    validateItems nitems = some doc.items ∧ doc.customer = c ∧
      doc.subtotal = s ∧ doc.shipping = sh ∧ doc.total = t ∧ doc.status = st := by
  unfold mkOrder at h
  cases hv : validateItems nitems with
  | none => rw [hv] at h; cases h
  | some vs =>
    rw [hv] at h
    dsimp only at h
    split_ifs at h with hc
    · cases h
      exact ⟨rfl, rfl, rfl, rfl, rfl, rfl⟩

theorem mkOrder_none_of_neg_shipping (nitems : List NormItem) (c : Customer)
    (s sh t : ℚ) (st : String) (h : sh < 0) :
    mkOrder nitems c s sh t st = none := by
  unfold mkOrder
  cases hv : validateItems nitems with
  | none => rfl
  | some vs =>
    dsimp only
    rw [if_neg]
    rintro ⟨-, h2, -⟩
    exact absurd h2 (not_le.mpr h)

theorem rawSubtotal_exact (catalog : String → Option ProductDoc) :
    ∀ items : List OrderItem,
      (∀ it ∈ items, ∃ n : ℤ, resolvedPrice catalog it = (n : ℚ) / 100) →
      ∃ N : ℤ, rawSubtotal catalog items = (N : ℚ) / 100
  | [], _ => ⟨0, by simp [rawSubtotal]⟩
  | it :: rest, h => by
    obtain ⟨n, hn⟩ := h it (List.mem_cons_self it rest)
    obtain ⟨N, hN⟩ := rawSubtotal_exact catalog rest
      (fun j hj => h j (List.mem_cons_of_mem it hj))
    refine ⟨n * it.quantity + N, ?_⟩
    rw [rawSubtotal_cons, hn, hN]
    push_cast
    ring

theorem createOrder_created_elim (catalog : String → Option ProductDoc)
    (req : OrderCreate) (doc : Order) (resp : OrderResp)
    (h : createOrder catalog req = .created doc resp) :
    (∀ it ∈ req.items, (findProduct catalog it.product_id).isSome) ∧
    ∃ ns, normalizeLoop catalog req.items =
        .ok (rawSubtotal catalog req.items) ns ∧
      List.Forall₂ (SnapRel catalog) req.items ns ∧
      mkOrder ns req.customer (round2 (rawSubtotal catalog req.items))
        req.shipping (round2 (rawSubtotal catalog req.items + req.shipping))
        "pending" = some doc ∧
      resp = ⟨round2 (rawSubtotal catalog req.items + req.shipping), "pending"⟩ := by
  unfold createOrder at h
  by_cases hemp : req.items.isEmpty
  · rw [if_pos hemp] at h; cases h
  · rw [if_neg hemp] at h
    have hres : ∀ it ∈ req.items, (findProduct catalog it.product_id).isSome := by
      by_contra hcon
      push_neg at hcon
      obtain ⟨it, hit, hns⟩ := hcon
      obtain ⟨j, hj, hjn, hinv⟩ := normalizeLoop_invalid_of_missing catalog
        req.items ⟨it, hit, Option.not_isSome_iff_eq_none.mp hns⟩
      rw [hinv] at h
      cases h
    obtain ⟨ns, hn, hf⟩ := normalizeLoop_ok_of_resolve catalog req.items hres
    rw [hn] at h
    dsimp only at h
    refine ⟨hres, ns, hn, hf, ?_⟩
    cases hmk : mkOrder ns req.customer (round2 (rawSubtotal catalog req.items))
        req.shipping (round2 (rawSubtotal catalog req.items + req.shipping))
        "pending" with
    | none => rw [hmk] at h; cases h
    | some doc' =>
      rw [hmk] at h
      cases h
      exact ⟨rfl, rfl⟩

theorem rawSubtotal_nonneg (catalog : String → Option ProductDoc) :
    ∀ items : List OrderItem,
      (∀ it ∈ items, 0 ≤ resolvedPrice catalog it ∧ 1 ≤ it.quantity) →
      0 ≤ rawSubtotal catalog items
  | [], _ => by simp [rawSubtotal]
  | it :: rest, h => by
    obtain ⟨hp, hq⟩ := h it (List.mem_cons_self it rest)
    have hrec := rawSubtotal_nonneg catalog rest
      (fun j hj => h j (List.mem_cons_of_mem it hj))
    rw [rawSubtotal_cons]
    have hqq : (0 : ℚ) ≤ (it.quantity : ℚ) := by
      exact_mod_cast le_trans zero_le_one hq
    exact add_nonneg (mul_nonneg hp hqq) hrec

theorem normalize_validate_chain (catalog : String → Option ProductDoc) :
    ∀ items : List OrderItem,
      (∀ j ∈ items, ∃ p, findProduct catalog j.product_id = some p ∧
        (∃ t, p.title = some t) ∧ 0 ≤ p.price.getD 0) →
      (∀ j ∈ items, 1 ≤ j.quantity) →
      ∃ ns vs, normalizeLoop catalog items = .ok (rawSubtotal catalog items) ns ∧
        validateItems ns = some vs ∧
        List.Forall₂ (fun (j v : OrderItem) => v.product_id = j.product_id ∧
          v.quantity = j.quantity ∧ v.price = resolvedPrice catalog j) items vs
  | [], _, _ => ⟨[], [], by simp [normalizeLoop, rawSubtotal], rfl, List.Forall₂.nil⟩
  | a :: rest, hres, hq => by
    obtain ⟨p, hp, ⟨t, ht⟩, hpr⟩ := hres a (List.mem_cons_self a rest)
    obtain ⟨ns, vs, hn, hv, hf⟩ := normalize_validate_chain catalog rest
      (fun j hj => hres j (List.mem_cons_of_mem a hj))
      (fun j hj => hq j (List.mem_cons_of_mem a hj))
    have hqa := hq a (List.mem_cons_self a rest)
    have hrp : resolvedPrice catalog a = p.price.getD 0 := by
      simp [resolvedPrice, hp]
    refine ⟨⟨a.product_id, p.title, p.price.getD 0, a.quantity, p.image⟩ :: ns,
      ⟨a.product_id, t, p.price.getD 0, a.quantity, p.image⟩ :: vs, ?_, ?_,
      List.Forall₂.cons ⟨rfl, rfl, hrp.symm⟩ hf⟩
    · simp [normalizeLoop, hp, hn, rawSubtotal_cons, hrp]
    · simp [validateItems, validateOrderItem, ht, hv, hpr, hqa]

theorem validateRawItems_some :
    ∀ items : List RawOrderItem,
      (∀ r ∈ items, (∃ pid, r.product_id = some pid) ∧ (∃ t, r.title = some t) ∧
        (∃ p, r.price = some p ∧ 0 ≤ p) ∧ (∃ q, r.quantity = some q ∧ 1 ≤ q)) →
      ∃ vs, validateRawItems items = some vs
  | [], _ => ⟨[], rfl⟩
  | r :: rest, h => by
    obtain ⟨⟨pid, hpid⟩, ⟨t, ht⟩, ⟨p, hp, hp0⟩, ⟨q, hq, hq1⟩⟩ :=
      h r (List.mem_cons_self r rest)
    obtain ⟨vs, hvs⟩ := validateRawItems_some rest
      (fun j hj => h j (List.mem_cons_of_mem r hj))
    exact ⟨⟨pid, t, p, q, r.image⟩ :: vs,
      by simp [validateRawItems, validateOrderItem, hpid, ht, hp, hq, hvs, hp0, hq1]⟩

theorem createOrder_badRequest_of_invalid (catalog : String → Option ProductDoc)
    (req : OrderCreate) (d : String) (hne : req.items ≠ [])
    (hinv : normalizeLoop catalog req.items = .invalid d) :
    createOrder catalog req = .rejected (.badRequest d) := by
  simp [createOrder, isEmpty_eq_false_of_ne hne, hinv]

theorem createOrder_internal_of_mkOrder_none (catalog : String → Option ProductDoc)
    (req : OrderCreate) (sub : ℚ) (ns : List NormItem) (hne : req.items ≠ [])
    (hn : normalizeLoop catalog req.items = .ok sub ns)
    (hmk : mkOrder ns req.customer (round2 sub) req.shipping
      (round2 (sub + req.shipping)) "pending" = none) :
    createOrder catalog req = .rejected (.internalError "validation error") := by
  simp [createOrder, isEmpty_eq_false_of_ne hne, hn, hmk]

theorem createOrder_created_of_mkOrder_some (catalog : String → Option ProductDoc)
    (req : OrderCreate) (sub : ℚ) (ns : List NormItem) (doc : Order)
    (hne : req.items ≠ [])
    (hn : normalizeLoop catalog req.items = .ok sub ns)
    (hmk : mkOrder ns req.customer (round2 sub) req.shipping
      (round2 (sub + req.shipping)) "pending" = some doc) :
    createOrder catalog req = .created doc ⟨round2 (sub + req.shipping), "pending"⟩ := by
  simp [createOrder, isEmpty_eq_false_of_ne hne, hn, hmk]

/-- A well-formed ObjectId hex string used by the concrete witnesses. -/
def pid0 : String := "aaaaaaaaaaaaaaaaaaaaaaaa"

/-- A concrete catalog document with title, price and image all present. -/
def prodNeon : ProductDoc := ⟨some "Neon Drive LED Poster", some 89, some "neon.jpg"⟩

/-- A concrete catalog holding exactly one product under `pid0`. -/
def catalog0 : String → Option ProductDoc :=
  fun pid => if pid = pid0 then some prodNeon else none

/-- A concrete valid customer. -/
def cust0 : Customer :=
  ⟨"Ada", "ada@example.com", none, "1 Main St", none, "Springfield", "IL",
    "62701", "US"⟩

/-- A concrete cart item: client-supplied title and price differ from the
catalog's and must be ignored. -/
def item0 : OrderItem := ⟨pid0, "client title", 1, 2, none⟩

/-- A concrete valid order request. -/
def req0 : OrderCreate := ⟨[item0], cust0, 0⟩

/-- The order document `createOrder catalog0 req0` persists. -/
def doc0 : Order :=
  ⟨[⟨pid0, "Neon Drive LED Poster", 89, 2, some "neon.jpg"⟩], cust0, 178, 0,
    178, "pending"⟩

/-- The response `createOrder catalog0 req0` returns. -/
def resp0 : OrderResp := ⟨178, "pending"⟩

/-- A cart item with a malformed product id ("bad-id" is not 24 hex chars). -/
def badItem : OrderItem := ⟨"bad-id", "t", 1, 1, none⟩

/-- A request containing only the malformed item. -/
def reqBad : OrderCreate := ⟨[badItem], cust0, 0⟩

/-- Two requests that agree on product ids, quantities, customer and shipping
but differ in client-supplied title, price and image. -/
def reqA : OrderCreate := ⟨[⟨pid0, "alpha", 5, 2, some "a.png"⟩], cust0, 3⟩

/-- Counterpart of `reqA` with different client-supplied snapshot fields. -/
def reqB : OrderCreate := ⟨[⟨pid0, "beta", 999, 2, none⟩], cust0, 3⟩

/-- A request with an empty items list. -/
def reqEmpty : OrderCreate := ⟨[], cust0, 0⟩

/-- An otherwise-valid request carrying a negative shipping value. -/
def reqNeg : OrderCreate := ⟨[item0], cust0, -5⟩

/-- A raw order item supplying exactly `product_id` and `quantity`. -/
def rawItemMinimal : RawOrderItem := ⟨some pid0, none, none, some 1, none⟩

/-- A raw order item supplying all required fields. -/
def rawItemFull : RawOrderItem := ⟨some pid0, some "client title", some 5, some 1, none⟩

/-- A catalog document that lacks the `price` field. -/
def prodNoPrice : ProductDoc := ⟨some "Mystery Kit", none, none⟩

/-- A catalog whose only product under `pid0` has no price field. -/
def catalogNP : String → Option ProductDoc :=
  fun pid => if pid = pid0 then some prodNoPrice else none

/-- C1: for every successful order creation in which each resolved unit price
is an exact 2-decimal value, the persisted total and the returned total equal
`round(round(subtotal_raw, 2) + shipping, 2)`, where `subtotal_raw` is the sum
over snapshots of unit price times quantity. -/
theorem create_order_total_rounding (catalog : String → Option ProductDoc)
    (req : OrderCreate) (doc : Order) (resp : OrderResp)
    (hok : createOrder catalog req = .created doc resp)
    (hexact : ∀ it ∈ req.items, ∃ n : ℤ, resolvedPrice catalog it = (n : ℚ) / 100) :
    doc.total = round2 (round2 (rawSubtotal catalog req.items) + req.shipping) ∧
    resp.total = doc.total := by
  obtain ⟨-, ns, hn, -, hmk, hresp⟩ := createOrder_created_elim catalog req doc resp hok
  obtain ⟨-, -, -, -, htot, -⟩ := mkOrder_some_elim _ _ _ _ _ _ _ hmk
  obtain ⟨N, hN⟩ := rawSubtotal_exact catalog req.items hexact
  have hfix : round2 (rawSubtotal catalog req.items) = rawSubtotal catalog req.items := by
    rw [hN, round2_int_div]
  rw [hfix]
  subst hresp
  exact ⟨htot, htot.symm⟩

/-- Witness for C1: the concrete order over `catalog0` (unit price 89.00,
quantity 2, shipping 0) is created with total 178.00 satisfying the rounding
equation. -/
theorem create_order_total_rounding_witness :
    doc0.total = round2 (round2 (rawSubtotal catalog0 req0.items) + req0.shipping) ∧
    resp0.total = doc0.total :=
  create_order_total_rounding catalog0 req0 doc0 resp0
    (by
      simp [createOrder, normalizeLoop, findProduct, catalog0, req0, item0,
        pid0, mkOrder, validateItems, validateOrderItem, doc0, resp0,
        isValidObjectId, isHexDigitChar, prodNeon]
      norm_num [round2, roundHalfEven])
    (by
      intro it hit
      rw [show req0.items = [item0] from rfl, List.mem_singleton] at hit
      subst hit
      refine ⟨8900, ?_⟩
      have h1 : findProduct catalog0 item0.product_id = some prodNeon := by decide
      unfold resolvedPrice
      rw [h1]
      norm_num [prodNeon])

/-- C2: any order request containing an item whose product id does not resolve
is rejected with HTTP 400 "Invalid product: <id>" for some unresolvable item
of the cart, and the order store is left unchanged. -/
theorem create_order_invalid_product (catalog : String → Option ProductDoc)
    (store : List Order) (req : OrderCreate)
    (h : ∃ it ∈ req.items, findProduct catalog it.product_id = none) :
    (∃ it ∈ req.items, findProduct catalog it.product_id = none ∧
      createOrder catalog req =
        .rejected (.badRequest ("Invalid product: " ++ it.product_id))) ∧
    ordersAfter catalog store req = store := by
  obtain ⟨it, hit, hnone, hinv⟩ := normalizeLoop_invalid_of_missing catalog req.items h
  have hne : req.items ≠ [] := by
    rintro h0
    rw [h0] at hit
    cases hit
  have hco := createOrder_badRequest_of_invalid catalog req _ hne hinv
  exact ⟨⟨it, hit, hnone, hco⟩, by simp [ordersAfter, hco]⟩

/-- Witness for C2: the request holding only the malformed "bad-id" item is
rejected and the empty store stays empty. -/
theorem create_order_invalid_product_witness :
    (∃ it ∈ reqBad.items, findProduct catalog0 it.product_id = none ∧
      createOrder catalog0 reqBad =
        .rejected (.badRequest ("Invalid product: " ++ it.product_id))) ∧
    ordersAfter catalog0 [] reqBad = [] :=
  create_order_invalid_product catalog0 [] reqBad
    ⟨badItem, List.mem_singleton.mpr rfl, by decide⟩

/-- C3: two requests that agree on each item's product id and quantity, on the
customer, and on shipping produce identical outcomes under the same catalog —
client-supplied per-item title, price and image never influence the subtotal,
the total, or the persisted snapshots. -/
theorem create_order_client_fields_ignored (catalog : String → Option ProductDoc)
    (req₁ req₂ : OrderCreate)
    (hitems : req₁.items.map (fun it => (it.product_id, it.quantity)) =
      req₂.items.map (fun it => (it.product_id, it.quantity)))
    (hcust : req₁.customer = req₂.customer)
    (hship : req₁.shipping = req₂.shipping) :
    createOrder catalog req₁ = createOrder catalog req₂ := by
  have hlen : req₁.items.length = req₂.items.length := by
    have h := congrArg List.length hitems
    simpa using h
  have hemp : req₁.items.isEmpty = req₂.items.isEmpty := by
    cases h1 : req₁.items <;> cases h2 : req₂.items <;> simp_all
  have hn := normalizeLoop_proj catalog req₁.items req₂.items hitems
  unfold createOrder
  rw [hemp, hn, hcust, hship]

/-- Witness for C3: `reqA` and `reqB` differ in client title, price and image
but agree on product id, quantity, customer and shipping, and yield the same
outcome. -/
theorem create_order_client_fields_ignored_witness :
    createOrder catalog0 reqA = createOrder catalog0 reqB :=
  create_order_client_fields_ignored catalog0 reqA reqB (by decide) rfl rfl

/-- C4: when every item of a cart resolves, normalization returns exactly one
snapshot per cart item in input order (repeats kept, priced independently),
each snapshot carrying the resolved product's title, price and image together
with the client's quantity, and the raw subtotal of the cart. -/
theorem normalize_one_snapshot_per_item (catalog : String → Option ProductDoc)
    (items : List OrderItem)
    (h : ∀ it ∈ items, (findProduct catalog it.product_id).isSome) :
    ∃ ns, normalizeLoop catalog items = .ok (rawSubtotal catalog items) ns ∧
      List.Forall₂ (SnapRel catalog) items ns :=
  normalizeLoop_ok_of_resolve catalog items h

/-- Witness for C4 at the singleton cart `[item0]` over `catalog0`. -/
theorem normalize_one_snapshot_per_item_witness :
    ∃ ns, normalizeLoop catalog0 [item0] = .ok (rawSubtotal catalog0 [item0]) ns ∧
      List.Forall₂ (SnapRel catalog0) [item0] ns :=
  normalize_one_snapshot_per_item catalog0 [item0]
    (by
      intro it hit
      rw [List.mem_singleton] at hit
      subst hit
      decide)

/-- C5: a malformed product id resolves to `none` exactly like a missing
record, and a request whose first unresolvable item is that malformed item is
rejected with the HTTP 400 "Invalid product" outcome naming it — never an
unhandled exception or 500 — with the order store unchanged. -/
theorem malformed_product_id_uniform (catalog : String → Option ProductDoc)
    (store : List Order) (req : OrderCreate) (pre post : List OrderItem)
    (it : OrderItem)
    (hsplit : req.items = pre ++ it :: post)
    (hmal : isValidObjectId it.product_id = false)
    (hpre : ∀ j ∈ pre, (findProduct catalog j.product_id).isSome) :
    findProduct catalog it.product_id = none ∧
    createOrder catalog req =
      .rejected (.badRequest ("Invalid product: " ++ it.product_id)) ∧
    ordersAfter catalog store req = store := by
  have hnone : findProduct catalog it.product_id = none := by
    simp [findProduct, hmal]
  have hinv : normalizeLoop catalog req.items =
      .invalid ("Invalid product: " ++ it.product_id) := by
    rw [hsplit]
    exact normalizeLoop_invalid_append catalog pre it post hpre hnone
  have hne : req.items ≠ [] := by
    rw [hsplit]
    simp
  have hco := createOrder_badRequest_of_invalid catalog req _ hne hinv
  exact ⟨hnone, hco, by simp [ordersAfter, hco]⟩

/-- Witness for C5: the malformed "bad-id" item at the head of `reqBad` yields
the not-found 400 outcome and leaves the store unchanged. -/
theorem malformed_product_id_uniform_witness :
    findProduct catalog0 badItem.product_id = none ∧
    createOrder catalog0 reqBad =
      .rejected (.badRequest ("Invalid product: " ++ badItem.product_id)) ∧
    ordersAfter catalog0 [] reqBad = [] :=
  malformed_product_id_uniform catalog0 [] reqBad [] [] badItem rfl
    (by decide) (by intro j hj; cases hj)

/-- C6: a request with an empty items list is rejected with HTTP 400
"Cart is empty"; the outcome is identical under any other catalog (so no
catalog lookup influenced it) and no order document is persisted. -/
theorem empty_cart_rejected (catalog catalog' : String → Option ProductDoc)
    (store : List Order) (req : OrderCreate) (h : req.items = []) :
    createOrder catalog req = .rejected (.badRequest "Cart is empty") ∧
    createOrder catalog req = createOrder catalog' req ∧
    ordersAfter catalog store req = store := by
  have h1 : createOrder catalog req = .rejected (.badRequest "Cart is empty") := by
    simp [createOrder, h]
  have h2 : createOrder catalog' req = .rejected (.badRequest "Cart is empty") := by
    simp [createOrder, h]
  exact ⟨h1, h1.trans h2.symm, by simp [ordersAfter, h1]⟩

/-- Witness for C6 at the concrete empty request over `catalog0` and the empty
catalog. -/
theorem empty_cart_rejected_witness :
    createOrder catalog0 reqEmpty = .rejected (.badRequest "Cart is empty") ∧
    createOrder catalog0 reqEmpty = createOrder (fun _ => none) reqEmpty ∧
    ordersAfter catalog0 [] reqEmpty = [] :=
  empty_cart_rejected catalog0 (fun _ => none) [] reqEmpty rfl

/-- C7 counterexample: at the concrete otherwise-valid request `reqNeg` with
shipping -5, order creation does not succeed — the `Order` schema's `ge=0`
constraint on shipping raises, the handler's catch-all returns HTTP 500, and
nothing is persisted — contradicting the claim that the request succeeds and
the order is persisted with the negative shipping value. -/
theorem create_order_negative_shipping_cex :
    createOrder catalog0 reqNeg = .rejected (.internalError "validation error") ∧
    ordersAfter catalog0 [] reqNeg = [] := by
  have hres : ∀ it ∈ reqNeg.items, (findProduct catalog0 it.product_id).isSome := by
    intro it hit
    rw [show reqNeg.items = [item0] from rfl, List.mem_singleton] at hit
    subst hit
    decide
  obtain ⟨ns, hn, -⟩ := normalizeLoop_ok_of_resolve catalog0 reqNeg.items hres
  have hmk := mkOrder_none_of_neg_shipping ns reqNeg.customer
    (round2 (rawSubtotal catalog0 reqNeg.items)) reqNeg.shipping
    (round2 (rawSubtotal catalog0 reqNeg.items + reqNeg.shipping)) "pending"
    (by norm_num [reqNeg])
  have h := createOrder_internal_of_mkOrder_none catalog0 reqNeg _ ns (by decide) hn hmk
  exact ⟨h, by simp [ordersAfter, h]⟩

/-- C7 amended: an otherwise-valid order request (non-empty cart, all product
ids resolving) with negative shipping passes request validation and reaches
order construction, but the persisted `Order` schema's non-negativity
constraint on shipping rejects it there: the request fails with HTTP 500 and
no order document is persisted. -/
theorem create_order_negative_shipping_rejected (catalog : String → Option ProductDoc)
    (store : List Order) (req : OrderCreate)
    (hne : req.items ≠ [])
    (hres : ∀ it ∈ req.items, (findProduct catalog it.product_id).isSome)
    (hship : req.shipping < 0) :
    createOrder catalog req = .rejected (.internalError "validation error") ∧
    ordersAfter catalog store req = store := by
  obtain ⟨ns, hn, -⟩ := normalizeLoop_ok_of_resolve catalog req.items hres
  have hmk := mkOrder_none_of_neg_shipping ns req.customer
    (round2 (rawSubtotal catalog req.items)) req.shipping
    (round2 (rawSubtotal catalog req.items + req.shipping)) "pending" hship
  have hco := createOrder_internal_of_mkOrder_none catalog req _ ns hne hn hmk
  exact ⟨hco, by simp [ordersAfter, hco]⟩

/-- Witness for the amended C7 at `reqNeg` with a non-empty store. -/
theorem create_order_negative_shipping_rejected_witness :
    createOrder catalog0 reqNeg = .rejected (.internalError "validation error") ∧
    ordersAfter catalog0 [doc0] reqNeg = [doc0] :=
  create_order_negative_shipping_rejected catalog0 [doc0] reqNeg
    (by decide)
    (by
      intro it hit
      rw [show reqNeg.items = [item0] from rfl, List.mem_singleton] at hit
      subst hit
      decide)
    (by norm_num [reqNeg])

/-- C8 counterexample: a POST /api/orders body whose single item supplies
exactly `product_id` and `quantity` (quantity 1) with a valid customer fails
request-schema validation (HTTP 422) instead of reaching order creation,
because the request reuses the persisted `OrderItem` schema whose `title` and
`price` are required fields. -/
theorem order_create_minimal_items_cex :
    validateOrderCreate [rawItemMinimal] cust0 none = none := rfl

/-- C8 amended: a POST /api/orders body passes request-schema validation and
reaches the order-creation workflow when each item supplies `product_id`,
`title`, a non-negative `price` and a `quantity` of at least 1 (together with
a structurally valid customer); items supplying only `product_id` and
`quantity` are rejected with 422, since the items field reuses the persisted
`OrderItem` schema with required `title` and `price`. -/
theorem order_create_validation (items : List RawOrderItem) (customer : Customer)
    (shipping : Option ℚ)
    (h : ∀ r ∈ items, (∃ pid, r.product_id = some pid) ∧ (∃ t, r.title = some t) ∧
      (∃ p, r.price = some p ∧ 0 ≤ p) ∧ (∃ q, r.quantity = some q ∧ 1 ≤ q)) :
    ∃ req : OrderCreate, validateOrderCreate items customer shipping = some req := by
  obtain ⟨vs, hvs⟩ := validateRawItems_some items h
  exact ⟨⟨vs, customer, shipping.getD 0⟩, by simp [validateOrderCreate, hvs]⟩

/-- Witness for the amended C8: a fully populated raw item passes validation. -/
theorem order_create_validation_witness :
    ∃ req : OrderCreate, validateOrderCreate [rawItemFull] cust0 none = some req :=
  order_create_validation [rawItemFull] cust0 none
    (by
      intro r hr
      rw [List.mem_singleton] at hr
      subst hr
      exact ⟨⟨pid0, rfl⟩, ⟨"client title", rfl⟩, ⟨5, rfl, by norm_num⟩,
        ⟨1, rfl, le_refl 1⟩⟩)

/-- C9: every successfully created order is persisted with status exactly
"pending", and the HTTP 200 response reports status "pending" and the same
total as the persisted document. -/
theorem created_order_status_pending (catalog : String → Option ProductDoc)
    (req : OrderCreate) (doc : Order) (resp : OrderResp)
    (h : createOrder catalog req = .created doc resp) :
    doc.status = "pending" ∧ resp.status = "pending" ∧ resp.total = doc.total := by
  obtain ⟨-, ns, hn, -, hmk, hresp⟩ := createOrder_created_elim catalog req doc resp h
  obtain ⟨-, -, -, -, htot, hst⟩ := mkOrder_some_elim _ _ _ _ _ _ _ hmk
  subst hresp
  exact ⟨hst, rfl, htot.symm⟩

/-- Witness for C9 at the concrete successful creation over `catalog0`. -/
theorem created_order_status_pending_witness :
    doc0.status = "pending" ∧ resp0.status = "pending" ∧ resp0.total = doc0.total :=
  created_order_status_pending catalog0 req0 doc0 resp0
    (by
      simp [createOrder, normalizeLoop, findProduct, catalog0, req0, item0,
        pid0, mkOrder, validateItems, validateOrderItem, doc0, resp0,
        isValidObjectId, isHexDigitChar, prodNeon]
      norm_num [round2, roundHalfEven])

/-- C10: a cart item resolving to a catalog document without a `price` field
does not fail the request: its snapshot unit price defaults to 0, the line
contributes 0 to the subtotal, and — the rest of the cart being valid — the
order is still created and appended to the store, with every persisted
snapshot carrying the resolved price. -/
theorem missing_price_defaults_zero (catalog : String → Option ProductDoc)
    (store : List Order) (req : OrderCreate) (it : OrderItem) (prod : ProductDoc)
    (hne : req.items ≠ [])
    (hres : ∀ j ∈ req.items, ∃ p, findProduct catalog j.product_id = some p ∧
      (∃ t, p.title = some t) ∧ 0 ≤ p.price.getD 0)
    (hq : ∀ j ∈ req.items, 1 ≤ j.quantity)
    (hship : 0 ≤ req.shipping)
    (hit : it ∈ req.items)
    (hprod : findProduct catalog it.product_id = some prod)
    (hnoprice : prod.price = none) :
    (∃ doc resp, createOrder catalog req = .created doc resp ∧
      ordersAfter catalog store req = store ++ [doc] ∧
      List.Forall₂ (fun (j v : OrderItem) => v.product_id = j.product_id ∧
        v.quantity = j.quantity ∧ v.price = resolvedPrice catalog j)
        req.items doc.items) ∧
    resolvedPrice catalog it = 0 ∧
    resolvedPrice catalog it * (it.quantity : ℚ) = 0 := by
  obtain ⟨ns, vs, hn, hv, hf⟩ := normalize_validate_chain catalog req.items hres hq
  have hpnn : ∀ j ∈ req.items, 0 ≤ resolvedPrice catalog j ∧ 1 ≤ j.quantity := by
    intro j hj
    obtain ⟨p, hp, -, hpr⟩ := hres j hj
    have hrp : resolvedPrice catalog j = p.price.getD 0 := by
      simp [resolvedPrice, hp]
    exact ⟨hrp ▸ hpr, hq j hj⟩
  have hsub : 0 ≤ rawSubtotal catalog req.items :=
    rawSubtotal_nonneg catalog req.items hpnn
  have h1 : 0 ≤ round2 (rawSubtotal catalog req.items) := round2_nonneg _ hsub
  have h2 : 0 ≤ round2 (rawSubtotal catalog req.items + req.shipping) :=
    round2_nonneg _ (add_nonneg hsub hship)
  have hmk : mkOrder ns req.customer (round2 (rawSubtotal catalog req.items))
      req.shipping (round2 (rawSubtotal catalog req.items + req.shipping))
      "pending" = some ⟨vs, req.customer, round2 (rawSubtotal catalog req.items),
        req.shipping, round2 (rawSubtotal catalog req.items + req.shipping),
        "pending"⟩ := by
    unfold mkOrder
    rw [hv]
    dsimp only
    rw [if_pos ⟨h1, hship, h2⟩]
  have hco := createOrder_created_of_mkOrder_some catalog req _ ns _ hne hn hmk
  have hzero : resolvedPrice catalog it = 0 := by
    unfold resolvedPrice
    rw [hprod]
    dsimp only
    rw [hnoprice]
    rfl
  exact ⟨⟨_, _, hco, by simp [ordersAfter, hco], hf⟩, hzero, by rw [hzero]; ring⟩

/-- Witness for C10: over `catalogNP`, whose only product lacks a price field,
the concrete request `req0` still creates an order, with the line priced 0. -/
theorem missing_price_defaults_zero_witness :
    (∃ doc resp, createOrder catalogNP req0 = .created doc resp ∧
      ordersAfter catalogNP [] req0 = [] ++ [doc] ∧
      List.Forall₂ (fun (j v : OrderItem) => v.product_id = j.product_id ∧
        v.quantity = j.quantity ∧ v.price = resolvedPrice catalogNP j)
        req0.items doc.items) ∧
    resolvedPrice catalogNP item0 = 0 ∧
    resolvedPrice catalogNP item0 * (item0.quantity : ℚ) = 0 :=
  missing_price_defaults_zero catalogNP [] req0 item0 prodNoPrice
    (by decide)
    (by
      intro j hj
      rw [show req0.items = [item0] from rfl, List.mem_singleton] at hj
      subst hj
      exact ⟨prodNoPrice, by decide, ⟨"Mystery Kit", rfl⟩,
        by norm_num [prodNoPrice]⟩)
    (by
      intro j hj
      rw [show req0.items = [item0] from rfl, List.mem_singleton] at hj
      subst hj
      decide)
    (by norm_num [req0])
    (List.mem_singleton.mpr rfl)
    (by decide)
    rfl
